import Mathlib

/-!
Shallow embedding of the Open Apparel Registry facility resolution core
(src/django/api/models.py and src/django/api/views.py): the list item and
match status enums, the four persisted tables, the OAR identifier
allocation loop in Facility.save, the confirm_match and reject_match
adjudication operations, list upload with replacement, and the derived
read views other_names, other_addresses and contributors.

Database rows are Lean structures; a database state is a record of row
lists; each view method becomes a pure function from a database state
(plus request parameters) to an Except value, an error modelling a raised
ValidationError or NotFound with the transaction rolled back.  Timestamps
and the pseudo-random identifier stream produced by make_oar_id are
external inputs and are passed in as parameters.
-/

namespace OAR

/-- Status values of FacilityListItem (models.py lines 231 to 241). -/
inductive ItemStatus
  | uploaded
  | parsed
  | geocoded
  | geocodedNoResults
  | matched
  | potentialMatch
  | confirmedMatch
  | errorStatus
  | errorParsing
  | errorGeocoding
  | errorMatching
  deriving DecidableEq, Repr

/-- Status values of FacilityMatch (models.py lines 468 to 471). -/
inductive MatchStatus
  | pending
  | automatic
  | confirmed
  | rejected
  deriving DecidableEq, Repr

/-- Action kinds recorded in processing_results entries.  views.py line 1113
uses ProcessingAction.CONFIRM; the other constructors model the pipeline
stage kinds from api.constants referenced by the spec (parse, geocode,
match).  There is no reject-specific kind anywhere in the source. -/
inductive ProcessingAction
  | parseAction
  | geocodeAction
  | matchAction
  | confirmAction
  deriving DecidableEq, Repr

/-- One entry of the append-only processing_results log of a list item,
with the keys used by views.py lines 1112 to 1119. -/
structure ProcessingResult where
  action : ProcessingAction
  startedAt : String
  error : Bool
  message : String
  finishedAt : String
  deriving DecidableEq, Repr

/-- Contributor row (models.py lines 45 to 102), restricted to the fields
the modelled operations read. -/
structure ContributorRec where
  id : Nat
  name : String
  adminId : Nat
  deriving DecidableEq, Repr

/-- FacilityList row (models.py lines 171 to 219), restricted to the fields
the modelled operations read.  replaces is the id of the replaced list. -/
structure FacilityListRec where
  id : Nat
  contributor : Option Nat
  name : String
  isActive : Bool
  isPublic : Bool
  replaces : Option Nat
  deriving DecidableEq, Repr

/-- FacilityListItem row (models.py lines 226 to 333).  geocodedPoint is the
nullable PostGIS point, modelled as an integer pair; facility is the
nullable foreign key to Facility, whose primary key is a string. -/
structure FacilityListItemRec where
  id : Nat
  facilityList : Nat
  rowIndex : Nat
  rawData : String
  status : ItemStatus
  processingResults : List ProcessingResult
  name : String
  address : String
  countryCode : String
  geocodedPoint : Option (Int × Int)
  facility : Option String
  deriving DecidableEq, Repr

/-- Facility row (models.py lines 339 to 391).  id is the OAR identifier
primary key, empty string before allocation; createdFrom is the id of the
seeding list item. -/
structure FacilityRec where
  id : String
  name : String
  address : String
  countryCode : String
  location : Int × Int
  createdFrom : Nat
  deriving DecidableEq, Repr

/-- FacilityMatch row (models.py lines 461 to 514).  results abstracts the
JSON diagnostic payload to its match_type tag. -/
structure FacilityMatchRec where
  id : Nat
  facilityListItem : Nat
  facility : String
  results : String
  confidence : Rat
  status : MatchStatus
  deriving DecidableEq, Repr

/-- The persisted state: one list per table. -/
structure DB where
  contributors : List ContributorRec
  lists : List FacilityListRec
  items : List FacilityListItemRec
  facilities : List FacilityRec
  matchRows : List FacilityMatchRec
  deriving DecidableEq, Repr

/-- Errors surfaced by the view operations: ValidationError or NotFound
from rest_framework.  allocExhausted models non-termination of the
identifier allocation loop when the supplied candidate stream runs out. -/
inductive ApiError
  | validationErr (msg : String)
  | notFound
  | allocExhausted
  deriving DecidableEq, Repr

/-- Transactional semantics of transaction.atomic: an error rolls the
state back, success commits the new state. -/
def runResult (db : DB) : Except ApiError DB → DB
  | Except.ok db2 => db2
  | Except.error _ => db

/-- FacilityList.objects.filter(contributor=user_contributor).get(pk=pk)
(views.py lines 919 to 922). -/
def findList (db : DB) (contributorId : Nat) (pk : Nat) : Option FacilityListRec :=
  (db.lists.filter (fun l => l.contributor == some contributorId)).find?
    (fun l => l.id == pk)

/-- FacilityListItem.objects.filter(facility_list=facility_list)
.get(pk=list_item_id) (views.py lines 923 to 926). -/
def findItem (db : DB) (listId : Nat) (itemId : Nat) : Option FacilityListItemRec :=
  (db.items.filter (fun i => i.facilityList == listId)).find?
    (fun i => i.id == itemId)

/-- FacilityMatch.objects.filter(facility_list_item=facility_list_item)
.get(pk=facility_match_id) (views.py lines 927 to 930). -/
def findMatch (db : DB) (itemId : Nat) (matchId : Nat) : Option FacilityMatchRec :=
  (db.matchRows.filter (fun m => m.facilityListItem == itemId)).find?
    (fun m => m.id == matchId)

/-- The identifier allocation loop in Facility.save (models.py lines 384
to 390): draw candidates from the make_oar_id stream until one is not
already the id of an existing facility.  The stream of successive
make_oar_id outputs is the list argument; an empty remainder models a
loop that has not yet terminated. -/
def allocOarId (existing : List String) : List String → Option String
  | [] => none
  | c :: rest => if c ∈ existing then allocOarId existing rest else some c

/-- Facility.save (models.py lines 383 to 391): when the id is the empty
string, allocate a fresh OAR id from the candidate stream; otherwise keep
the id as it is.  Returns the saved row together with the new state. -/
def saveFacility (candidates : List String) (db : DB) (f : FacilityRec) :
    Option (DB × FacilityRec) :=
  if f.id = "" then
    match allocOarId (db.facilities.map (fun x => x.id)) candidates with
    | none => none
    | some newId =>
      let f2 : FacilityRec := { f with id := newId }
      some ({ db with facilities := db.facilities ++ [f2] }, f2)
  else
    some ({ db with facilities := db.facilities ++ [f] }, f)

/-- Sequential facility insertions: each job carries its own candidate
stream and the row to save. -/
def saveAll : List (List String × FacilityRec) → DB → Option DB
  | [], db => some db
  | (cands, f) :: rest, db =>
    match saveFacility cands db f with
    | none => none
    | some (db2, _) => saveAll rest db2

/-- Fresh auto-increment primary key for a new FacilityMatch row. -/
def nextMatchId (db : DB) : Nat := (db.matchRows.map (fun m => m.id)).foldr max 0 + 1

/-- Fresh auto-increment primary key for a new FacilityList row. -/
def nextListId (db : DB) : Nat := (db.lists.map (fun l => l.id)).foldr max 0 + 1

/-- Fresh auto-increment primary key base for new FacilityListItem rows. -/
def nextItemId (db : DB) : Nat := (db.items.map (fun i => i.id)).foldr max 0 + 1

/-- Embedding of FacilityListViewSet.confirm_match (views.py lines 908 to
959): look up the list by contributor and pk, the item in that list, the
match on that item; require item status POTENTIAL_MATCH and match status
PENDING; then set the named match to CONFIRMED, every other match of the
item to REJECTED, and the item to CONFIRMED_MATCH with its facility link
set to the confirmed match facility. -/
def confirmMatch (db : DB) (contributorId pk listItemId facilityMatchId : Nat) :
    Except ApiError DB :=
  match findList db contributorId pk with
  | none => Except.error ApiError.notFound
  | some fl =>
    match findItem db fl.id listItemId with
    | none => Except.error ApiError.notFound
    | some item =>
      match findMatch db item.id facilityMatchId with
      | none => Except.error ApiError.notFound
      | some fm =>
        if item.status ≠ ItemStatus.potentialMatch then
          Except.error (ApiError.validationErr
            "facility list item status must be POTENTIAL_MATCH")
        else if fm.status ≠ MatchStatus.pending then
          Except.error (ApiError.validationErr
            "facility match status must be PENDING")
        else
          let matches1 := db.matchRows.map (fun x =>
            if x.id = facilityMatchId then
              { x with status := MatchStatus.confirmed } else x)
          let matches2 := matches1.map (fun x =>
            if x.facilityListItem = item.id ∧ x.id ≠ facilityMatchId then
              { x with status := MatchStatus.rejected } else x)
          let items1 := db.items.map (fun i =>
            if i.id = listItemId then
              { i with status := ItemStatus.confirmedMatch,
                       facility := some fm.facility }
            else i)
          Except.ok { db with matchRows := matches2, items := items1 }

/-- The processing result entry appended by reject_match when no geocoded
location is available (views.py lines 1111 to 1119): action kind CONFIRM,
the same single timestamp for started_at and finished_at, the error flag,
and the literal message of the source. -/
def rejectErrEntry (ts : String) : ProcessingResult :=
  { action := ProcessingAction.confirmAction
    startedAt := ts
    error := true
    message :=
      "Unable to create a new facility from an item with no geocoded location"
    finishedAt := ts }

/-- Embedding of FacilityListViewSet.reject_match (views.py lines 1061 to
1156).  Same lookups and preconditions as confirm_match; the named match
becomes REJECTED; if matches of the item with status PENDING remain the
state is otherwise unchanged; if none remain and the item has no geocoded
point or has status GEOCODED_NO_RESULTS, the item moves to ERROR_MATCHING
with one appended processing result (timestamp ts for both started_at and
finished_at); otherwise a new Facility is saved through Facility.save
(drawing ids from candidates), a new CONFIRMED match with confidence 1.0
and an all_potential_matches_rejected payload is created, and the item
moves to CONFIRMED_MATCH linked to the new facility.  The disjunction
no_location or no_geocoding_results of views.py line 1109 is rendered as
a match on the geocoded point followed by the status test. -/
def rejectMatch (db : DB) (contributorId pk listItemId facilityMatchId : Nat)
    (ts : String) (candidates : List String) : Except ApiError DB :=
  match findList db contributorId pk with
  | none => Except.error ApiError.notFound
  | some fl =>
    match findItem db fl.id listItemId with
    | none => Except.error ApiError.notFound
    | some item =>
      match findMatch db item.id facilityMatchId with
      | none => Except.error ApiError.notFound
      | some fm =>
        if item.status ≠ ItemStatus.potentialMatch then
          Except.error (ApiError.validationErr
            "facility list item status must be POTENTIAL_MATCH")
        else if fm.status ≠ MatchStatus.pending then
          Except.error (ApiError.validationErr
            "facility match status must be PENDING")
        else
          let matches1 := db.matchRows.map (fun x =>
            if x.id = facilityMatchId then
              { x with status := MatchStatus.rejected } else x)
          let db1 : DB := { db with matchRows := matches1 }
          let remaining := db1.matchRows.filter (fun m =>
            m.facilityListItem == item.id && m.status == MatchStatus.pending)
          if remaining.length = 0 then
            let errDb : DB := { db1 with items := db1.items.map (fun i =>
              if i.id = listItemId then
                { i with status := ItemStatus.errorMatching,
                         processingResults := i.processingResults ++ [rejectErrEntry ts] }
              else i) }
            match item.geocodedPoint with
            | none => Except.ok errDb
            | some pt =>
              if item.status = ItemStatus.geocodedNoResults then Except.ok errDb
              else
                let newFac : FacilityRec :=
                  { id := ""
                    name := item.name
                    address := item.address
                    countryCode := item.countryCode
                    location := pt
                    createdFrom := item.id }
                match saveFacility candidates db1 newFac with
                | none => Except.error ApiError.allocExhausted
                | some (db2, fac) =>
                  let newMatch : FacilityMatchRec :=
                    { id := nextMatchId db2
                      facilityListItem := item.id
                      facility := fac.id
                      results := "all_potential_matches_rejected"
                      confidence := 1
                      status := MatchStatus.confirmed }
                  let db3 : DB := { db2 with matchRows := db2.matchRows ++ [newMatch] }
                  Except.ok { db3 with items := db3.items.map (fun i =>
                    if i.id = listItemId then
                      { i with facility := some fac.id,
                               status := ItemStatus.confirmedMatch }
                    else i) }
          else
            Except.ok db1

/-- The facility row seeded from a list item in the reject_match creation
branch (views.py lines 1121 to 1127), with its allocated identifier. -/
def facilityFromItem (item : FacilityListItemRec) (pt : Int × Int)
    (newId : String) : FacilityRec :=
  { id := newId, name := item.name, address := item.address,
    countryCode := item.countryCode, location := pt, createdFrom := item.id }

/-- The fallback match row created in the reject_match creation branch
(views.py lines 1129 to 1140). -/
def fallbackMatch (mid : Nat) (item : FacilityListItemRec)
    (newId : String) : FacilityMatchRec :=
  { id := mid, facilityListItem := item.id, facility := newId,
    results := "all_potential_matches_rejected", confidence := 1,
    status := MatchStatus.confirmed }

/-- Header validation of FacilityListViewSet._validate_header (views.py
lines 552 to 562).  Modelled from the spec for the parts outside src: the
parse_csv_line capability and the per-field lowercasing of views.py line
555 are external string operations, so the operation receives the already
parsed and lowercased header fields, and the CsvHeaderField constants are
the country, name and address field names of spec section 6. -/
def requiredFieldsPresent (parsedHeader : List String) : Bool :=
  parsedHeader.contains "country" && parsedHeader.contains "name" &&
    parsedHeader.contains "address"

/-- Creation of the new list, deactivation of the replaced list, and bulk
creation of the item rows (views.py lines 654 to 688).  Data lines are
the file lines after the header line; row_index is idx - 1 for idx > 0. -/
def insertList (db : DB) (contributorId : Nat) (listName : String)
    (fileLines : List String) (replaces : Option Nat) : DB :=
  let newId := nextListId db
  let newList : FacilityListRec :=
    { id := newId
      contributor := some contributorId
      name := listName
      isActive := true
      isPublic := true
      replaces := replaces }
  let lists1 := db.lists ++ [newList]
  let lists2 := match replaces with
    | none => lists1
    | some rid => lists1.map (fun l =>
        if l.id = rid then { l with isActive := false } else l)
  let base := nextItemId db
  let newItems : List FacilityListItemRec := (fileLines.drop 1).enum.map (fun p =>
    { id := base + p.fst
      facilityList := newId
      rowIndex := p.fst
      rawData := p.snd
      status := ItemStatus.uploaded
      processingResults := []
      name := ""
      address := ""
      countryCode := ""
      geocodedPoint := none
      facility := none })
  { db with lists := lists2, items := db.items ++ newItems }

/-- Embedding of FacilityListViewSet.create (views.py lines 564 to 694),
restricted to header validation, the replaces request handling (lines 637
to 652), list creation, deactivation of the replaced list and item
creation, all inside one transaction.  File decoding, size checks and job
submission are external. -/
def uploadList (db : DB) (contributorId : Nat) (parsedHeader : List String)
    (listName : String) (fileLines : List String) (replacesReq : Option Nat) :
    Except ApiError DB :=
  if requiredFieldsPresent parsedHeader = false then
    Except.error (ApiError.validationErr
      "Header must contain country, name, and address fields.")
  else
    match db.contributors.find? (fun c => c.id == contributorId) with
    | none => Except.error (ApiError.validationErr "User contributor cannot be None")
    | some _ =>
      match replacesReq with
      | none =>
        Except.ok (insertList db contributorId listName fileLines none)
      | some rid =>
        match findList db contributorId rid with
        | none => Except.error (ApiError.validationErr "is not a valid FacilityList ID.")
        | some old =>
          if (db.lists.filter (fun l => l.replaces == some old.id)).length > 0 then
            Except.error (ApiError.validationErr "has already been replaced.")
          else
            Except.ok (insertList db contributorId listName fileLines (some old.id))

/-- The facilitymatch_set query shared by the three derived views
(models.py lines 394 to 402): matches of the facility with status
AUTOMATIC or CONFIRMED, resolved to their list item rows. -/
def facilityItemRows (db : DB) (fac : FacilityRec) : List FacilityListItemRec :=
  ((db.matchRows.filter (fun m => m.facility == fac.id &&
      (m.status == MatchStatus.automatic || m.status == MatchStatus.confirmed))).filterMap
    (fun m => db.items.find? (fun i => i.id == m.facilityListItem)))

/-- Facility.other_names (models.py lines 393 to 413): distinct names of
qualifying items that are non-empty, differ from the facility name, and
whose owning list is active and public. -/
def otherNames (db : DB) (fac : FacilityRec) : List String :=
  (((facilityItemRows db fac).filter (fun i =>
      i.name.length != 0 && i.name != fac.name &&
      (match db.lists.find? (fun l => l.id == i.facilityList) with
       | some l => l.isActive && l.isPublic
       | none => false))).map (fun i => i.name)).dedup

/-- Facility.other_addresses (models.py lines 415 to 435): distinct
addresses of qualifying items that are non-empty, differ from the
facility address, and whose owning list is active and public. -/
def otherAddresses (db : DB) (fac : FacilityRec) : List String :=
  (((facilityItemRows db fac).filter (fun i =>
      i.address.length != 0 && i.address != fac.address &&
      (match db.lists.find? (fun l => l.id == i.facilityList) with
       | some l => l.isActive && l.isPublic
       | none => false))).map (fun i => i.address)).dedup

/-- Facility.contributors (models.py lines 437 to 458): the dict keyed by
"contributor name (list name)" with the contributor admin id as value,
over qualifying items whose owning list is active, public and has a
non-null contributor. -/
def contributorsView (db : DB) (fac : FacilityRec) : List (String × Nat) :=
  ((facilityItemRows db fac).filterMap (fun i =>
    match db.lists.find? (fun l => l.id == i.facilityList) with
    | none => none
    | some l =>
      if l.isActive && l.isPublic then
        match l.contributor with
        | none => none
        | some cid =>
          match db.contributors.find? (fun c => c.id == cid) with
          | none => none
          | some c => some (c.name ++ " (" ++ l.name ++ ")", c.adminId)
      else none)).dedup

/-- Number of matches of the given item holding AUTOMATIC or CONFIRMED
status: the quantity bounded by the exclusivity invariant. -/
def exclusiveCount (db : DB) (itemId : Nat) : Nat :=
  (db.matchRows.filter (fun m => m.facilityListItem == itemId &&
    (m.status == MatchStatus.automatic || m.status == MatchStatus.confirmed))).length

/-! Concrete fixture rows and database states used by witnesses and
counterexamples. -/

def wContrib : ContributorRec := { id := 1, name := "Contrib", adminId := 10 }

def wList : FacilityListRec :=
  { id := 1, contributor := some 1, name := "ListA",
    isActive := true, isPublic := true, replaces := none }

def wItem : FacilityListItemRec :=
  { id := 1, facilityList := 1, rowIndex := 0, rawData := "raw",
    status := ItemStatus.potentialMatch, processingResults := [],
    name := "Item Name", address := "Item Address", countryCode := "US",
    geocodedPoint := some (1, 2), facility := none }

def wFac : FacilityRec :=
  { id := "US001", name := "Fac Name", address := "Fac Address",
    countryCode := "US", location := (0, 0), createdFrom := 7 }

def wMatch1 : FacilityMatchRec :=
  { id := 1, facilityListItem := 1, facility := "US001",
    results := "single_gazetteer_match", confidence := 1/2,
    status := MatchStatus.pending }

def wMatch2 : FacilityMatchRec := { wMatch1 with id := 2, confidence := 3/5 }

def wMatch0 : FacilityMatchRec :=
  { wMatch1 with id := 3, status := MatchStatus.confirmed }

/-- Item in POTENTIAL_MATCH with two PENDING matches. -/
def dbTwoPending : DB :=
  { contributors := [wContrib], lists := [wList], items := [wItem],
    facilities := [wFac], matchRows := [wMatch1, wMatch2] }

/-- Item in POTENTIAL_MATCH with a single PENDING match and a geocoded
point. -/
def dbOnePending : DB := { dbTwoPending with matchRows := [wMatch1] }

/-- Item in POTENTIAL_MATCH with a single PENDING match and no geocoded
point. -/
def wItemNoPt : FacilityListItemRec := { wItem with geocodedPoint := none }

def dbNoPoint : DB :=
  { dbTwoPending with items := [wItemNoPt], matchRows := [wMatch1] }

/-- Item in POTENTIAL_MATCH holding one CONFIRMED match besides its single
PENDING match. -/
def dbConfirmedPending : DB :=
  { dbTwoPending with matchRows := [wMatch0, wMatch1] }

/-- Item whose status already left POTENTIAL_MATCH. -/
def dbWrongStatus : DB :=
  { dbTwoPending with items := [{ wItem with status := ItemStatus.matched }] }

/-- One CONFIRMED match for the derived view witnesses. -/
def dbViews : DB :=
  { dbTwoPending with matchRows := [{ wMatch1 with status := MatchStatus.confirmed }] }

/-- Row awaiting identifier allocation in Facility.save. -/
def wFacNew : FacilityRec :=
  { id := "", name := "New Fac", address := "New Addr",
    countryCode := "US", location := (1, 2), createdFrom := 1 }

/-- The literal message recorded by the source (views.py line 1116). -/
def sourceRejectMsg : String :=
  "Unable to create a new facility from an item with no geocoded location"

/-- The failure reason quoted by the specification. -/
def specRejectMsg : String :=
  "cannot create a facility without a geocoded location"

/-! Helper lemmas. -/

theorem find_by_key_iff {α : Type} (key : α → Nat) (l : List α)
    (hnd : (l.map key).Nodup) (k : Nat) (a : α) :
    l.find? (fun x => key x == k) = some a ↔ a ∈ l ∧ key a = k := by
  constructor
  · intro h
    refine ⟨List.mem_of_find?_eq_some h, ?_⟩
    have := List.find?_some h
    simpa using this
  · rintro ⟨hmem, hkey⟩
    induction l with
    | nil => cases hmem
    | cons b t ih =>
      rcases List.mem_cons.1 hmem with rfl | hmem2
      · simp [List.find?, hkey]
      · have hbk : key b ≠ k := by
          intro hbk
          have : key a ∈ t.map key := List.mem_map_of_mem key hmem2
          rw [hkey, ← hbk] at this
          exact (List.nodup_cons.1 (by simpa using hnd)).1 this
        have ht : (t.map key).Nodup := (List.nodup_cons.1 (by simpa using hnd)).2
        have hb : (key b == k) = false := by simp [hbk]
        simp [List.find?_cons, hb, ih ht hmem2]

theorem le_foldr_max (a : Nat) (l : List Nat) (h : a ∈ l) :
    a ≤ l.foldr max 0 := by
  induction l with
  | nil => cases h
  | cons b t ih =>
    rcases List.mem_cons.1 h with rfl | h2
    · exact le_max_left _ _
    · exact le_trans (ih h2) (le_max_right _ _)

theorem length_filter_map_le {α : Type} (g : α → α) (p q : α → Bool) (l : List α)
    (h : ∀ x ∈ l, p (g x) = true → q x = true) :
    ((l.map g).filter p).length ≤ (l.filter q).length := by
  induction l with
  | nil => simp
  | cons a t ih =>
    have ht : ∀ x ∈ t, p (g x) = true → q x = true := fun x hx => h x (List.mem_cons_of_mem a hx)
    by_cases hpa : p (g a) = true
    · rw [List.map_cons, List.filter_cons, if_pos hpa,
        List.filter_cons, if_pos (h a (List.mem_cons_self a t) hpa)]
      simpa using ih ht
    · rw [List.map_cons, List.filter_cons, if_neg hpa, List.filter_cons]
      by_cases hqa : q a = true
      · rw [if_pos hqa]
        exact le_trans (ih ht) (Nat.le_succ _)
      · rw [if_neg hqa]
        exact ih ht

theorem length_filter_key_le_one {α : Type} (key : α → Nat) (k : Nat) (l : List α)
    (hnd : (l.map key).Nodup) :
    (l.filter (fun x => key x == k)).length ≤ 1 := by
  induction l with
  | nil => simp
  | cons a t ih =>
    have hhead : key a ∉ t.map key := (List.nodup_cons.1 (by simpa using hnd)).1
    have htail : (t.map key).Nodup := (List.nodup_cons.1 (by simpa using hnd)).2
    by_cases hak : key a = k
    · have hnil : t.filter (fun x => key x == k) = [] := by
        rw [List.filter_eq_nil_iff]
        intro b hb
        simp only [beq_iff_eq]
        intro hbk
        exact hhead (by rw [hak, ← hbk]; exact List.mem_map_of_mem key hb)
      simp [List.filter_cons, hak, hnil]
    · rw [List.filter_cons, if_neg (by simpa using hak)]
      exact ih htail

theorem allocOarId_not_mem (existing : List String) (cands : List String)
    (i : String) (h : allocOarId existing cands = some i) : i ∉ existing := by
  induction cands with
  | nil => simp [allocOarId] at h
  | cons c rest ih =>
    by_cases hc : c ∈ existing
    · rw [allocOarId, if_pos hc] at h
      exact ih h
    · rw [allocOarId, if_neg hc] at h
      cases h
      exact hc

/-- Reduction of confirm_match when the preconditions hold: the committed
state written out explicitly. -/
theorem confirmMatch_eq_ok (db : DB) (cid pk itemId matchId : Nat)
    (fl : FacilityListRec) (item : FacilityListItemRec) (fm : FacilityMatchRec)
    (hfl : findList db cid pk = some fl)
    (hit : findItem db fl.id itemId = some item)
    (hfm : findMatch db item.id matchId = some fm)
    (hstat : item.status = ItemStatus.potentialMatch)
    (hms : fm.status = MatchStatus.pending) :
    confirmMatch db cid pk itemId matchId = Except.ok { db with
      matchRows := ((db.matchRows.map (fun x =>
          if x.id = matchId then { x with status := MatchStatus.confirmed } else x)).map
        (fun x => if x.facilityListItem = item.id ∧ x.id ≠ matchId then
          { x with status := MatchStatus.rejected } else x)),
      items := db.items.map (fun i =>
        if i.id = itemId then
          { i with status := ItemStatus.confirmedMatch, facility := some fm.facility }
        else i) } := by
  unfold confirmMatch
  rw [hfl]; dsimp only
  rw [hit]; dsimp only
  rw [hfm]; dsimp only
  rw [if_neg (by simp [hstat]), if_neg (by simp [hms])]

/-- C1: for an item in POTENTIAL_MATCH and a PENDING match on it, confirm
sets the named match to CONFIRMED, every other match of the item to
REJECTED, the item facility link to the confirmed match facility, and the
item status to CONFIRMED_MATCH. -/
theorem confirm_match_effects
    (db : DB) (cid pk itemId matchId : Nat)
    (fl : FacilityListRec) (item : FacilityListItemRec) (fm : FacilityMatchRec)
    (hfl : findList db cid pk = some fl)
    (hit : findItem db fl.id itemId = some item)
    (hfm : findMatch db item.id matchId = some fm)
    (hstat : item.status = ItemStatus.potentialMatch)
    (hms : fm.status = MatchStatus.pending) :
    ∃ db', confirmMatch db cid pk itemId matchId = Except.ok db' ∧
      (∀ x ∈ db'.matchRows, x.id = matchId → x.status = MatchStatus.confirmed) ∧
      (∀ x ∈ db'.matchRows, x.facilityListItem = item.id → x.id ≠ matchId →
        x.status = MatchStatus.rejected) ∧
      (∀ i ∈ db'.items, i.id = itemId →
        i.status = ItemStatus.confirmedMatch ∧ i.facility = some fm.facility) := by
  refine ⟨_, confirmMatch_eq_ok db cid pk itemId matchId fl item fm hfl hit hfm hstat hms,
    ?_, ?_, ?_⟩
  · intro x hx
    simp only [List.mem_map] at hx
    obtain ⟨y, ⟨z, hz, rfl⟩, rfl⟩ := hx
    by_cases hz1 : z.id = matchId
    · simp [hz1]
    · simp only [if_neg hz1]
      by_cases hz2 : z.facilityListItem = item.id ∧ z.id ≠ matchId
      · simp [hz2]
      · simp only [if_neg hz2]
        intro hfalse
        exact absurd hfalse hz1
  · intro x hx
    simp only [List.mem_map] at hx
    obtain ⟨y, ⟨z, hz, rfl⟩, rfl⟩ := hx
    by_cases hz1 : z.id = matchId
    · simp [hz1]
    · simp only [if_neg hz1]
      by_cases hz2 : z.facilityListItem = item.id ∧ z.id ≠ matchId
      · simp [hz2]
      · simp only [if_neg hz2]
        intro hfli hneq
        exact absurd ⟨hfli, hneq⟩ hz2
  · intro i hi
    simp only [List.mem_map] at hi
    obtain ⟨j, hj, rfl⟩ := hi
    by_cases hj1 : j.id = itemId
    · simp [hj1]
    · simp only [if_neg hj1]
      intro hfalse
      exact absurd hfalse hj1

/-- Witness for C1 at a concrete state. -/
theorem confirm_match_effects_witness :
    ∃ db', confirmMatch dbTwoPending 1 1 1 1 = Except.ok db' ∧
      (∀ x ∈ db'.matchRows, x.id = 1 → x.status = MatchStatus.confirmed) ∧
      (∀ x ∈ db'.matchRows, x.facilityListItem = wItem.id → x.id ≠ 1 →
        x.status = MatchStatus.rejected) ∧
      (∀ i ∈ db'.items, i.id = 1 →
        i.status = ItemStatus.confirmedMatch ∧ i.facility = some wMatch1.facility) :=
  confirm_match_effects dbTwoPending 1 1 1 1 wList wItem wMatch1 rfl rfl rfl rfl rfl

/-- After the named match is set to REJECTED, no PENDING match of the item
remains when every other match of the item was already non-PENDING. -/
theorem remaining_pending_nil (l : List FacilityMatchRec) (itemId matchId : Nat)
    (hnorem : ∀ x ∈ l, x.facilityListItem = itemId → x.id ≠ matchId →
      x.status ≠ MatchStatus.pending) :
    (l.map (fun x => if x.id = matchId then
        { x with status := MatchStatus.rejected } else x)).filter
      (fun m => m.facilityListItem == itemId && m.status == MatchStatus.pending) = [] := by
  rw [List.filter_eq_nil_iff]
  intro a ha
  obtain ⟨z, hz, rfl⟩ := List.mem_map.1 ha
  by_cases hz1 : z.id = matchId
  · simp [hz1]
  · simp only [if_neg hz1, Bool.and_eq_true, beq_iff_eq, not_and]
    intro hfli
    simp [hnorem z hz hfli hz1]

/-- A PENDING match of the item other than the named one still counts as
remaining after the named match is set to REJECTED. -/
theorem remaining_pending_ne_nil (l : List FacilityMatchRec) (itemId matchId : Nat)
    (hrem : ∃ m2 ∈ l, m2.facilityListItem = itemId ∧ m2.id ≠ matchId ∧
      m2.status = MatchStatus.pending) :
    ((l.map (fun x => if x.id = matchId then
        { x with status := MatchStatus.rejected } else x)).filter
      (fun m => m.facilityListItem == itemId && m.status == MatchStatus.pending)).length ≠ 0 := by
  obtain ⟨m2, hm2, hfli, hneq, hpend⟩ := hrem
  have hmem : m2 ∈ l.map (fun x => if x.id = matchId then
      { x with status := MatchStatus.rejected } else x) := by
    refine List.mem_map.2 ⟨m2, hm2, ?_⟩
    rw [if_neg hneq]
  have hfilter : m2 ∈ (l.map (fun x => if x.id = matchId then
      { x with status := MatchStatus.rejected } else x)).filter
      (fun m => m.facilityListItem == itemId && m.status == MatchStatus.pending) :=
    List.mem_filter.2 ⟨hmem, by simp [hfli, hpend]⟩
  exact Nat.pos_iff_ne_zero.1 (List.length_pos.2 (List.ne_nil_of_mem hfilter))

/-- Reduction of reject_match when the preconditions hold and another
PENDING match of the item remains: only the named match changes. -/
theorem rejectMatch_eq_ok_pending (db : DB) (cid pk itemId matchId : Nat)
    (ts : String) (cands : List String)
    (fl : FacilityListRec) (item : FacilityListItemRec) (fm : FacilityMatchRec)
    (hfl : findList db cid pk = some fl)
    (hit : findItem db fl.id itemId = some item)
    (hfm : findMatch db item.id matchId = some fm)
    (hstat : item.status = ItemStatus.potentialMatch)
    (hms : fm.status = MatchStatus.pending)
    (hrem : ∃ m2 ∈ db.matchRows, m2.facilityListItem = item.id ∧ m2.id ≠ matchId ∧
      m2.status = MatchStatus.pending) :
    rejectMatch db cid pk itemId matchId ts cands = Except.ok { db with
      matchRows := db.matchRows.map (fun x =>
        if x.id = matchId then { x with status := MatchStatus.rejected } else x) } := by
  unfold rejectMatch
  rw [hfl]; dsimp only
  rw [hit]; dsimp only
  rw [hfm]; dsimp only
  rw [if_neg (by simp [hstat]), if_neg (by simp [hms])]
  rw [if_neg (remaining_pending_ne_nil db.matchRows item.id matchId hrem)]

/-- Reduction of reject_match when the preconditions hold, no other PENDING
match remains, and the item has no geocoded point: the error branch. -/
theorem rejectMatch_eq_ok_error (db : DB) (cid pk itemId matchId : Nat)
    (ts : String) (cands : List String)
    (fl : FacilityListRec) (item : FacilityListItemRec) (fm : FacilityMatchRec)
    (hfl : findList db cid pk = some fl)
    (hit : findItem db fl.id itemId = some item)
    (hfm : findMatch db item.id matchId = some fm)
    (hstat : item.status = ItemStatus.potentialMatch)
    (hms : fm.status = MatchStatus.pending)
    (hnorem : ∀ x ∈ db.matchRows, x.facilityListItem = item.id → x.id ≠ matchId →
      x.status ≠ MatchStatus.pending)
    (hpt : item.geocodedPoint = none) :
    rejectMatch db cid pk itemId matchId ts cands = Except.ok { db with
      matchRows := db.matchRows.map (fun x =>
        if x.id = matchId then { x with status := MatchStatus.rejected } else x),
      items := db.items.map (fun i =>
        if i.id = itemId then
          { i with status := ItemStatus.errorMatching,
                   processingResults := i.processingResults ++ [rejectErrEntry ts] }
        else i) } := by
  unfold rejectMatch
  rw [hfl]; dsimp only
  rw [hit]; dsimp only
  rw [hfm]; dsimp only
  rw [if_neg (by simp [hstat]), if_neg (by simp [hms])]
  rw [remaining_pending_nil db.matchRows item.id matchId hnorem]
  dsimp only [List.length_nil]
  rw [if_pos rfl, hpt]

/-- Reduction of reject_match when the preconditions hold, no other PENDING
match remains, the item has a geocoded point, and allocation succeeds: the
facility creation branch. -/
theorem rejectMatch_eq_ok_create (db : DB) (cid pk itemId matchId : Nat)
    (ts : String) (cands : List String)
    (fl : FacilityListRec) (item : FacilityListItemRec) (fm : FacilityMatchRec)
    (pt : Int × Int) (newId : String)
    (hfl : findList db cid pk = some fl)
    (hit : findItem db fl.id itemId = some item)
    (hfm : findMatch db item.id matchId = some fm)
    (hstat : item.status = ItemStatus.potentialMatch)
    (hms : fm.status = MatchStatus.pending)
    (hnorem : ∀ x ∈ db.matchRows, x.facilityListItem = item.id → x.id ≠ matchId →
      x.status ≠ MatchStatus.pending)
    (hpt : item.geocodedPoint = some pt)
    (halloc : allocOarId (db.facilities.map (fun x => x.id)) cands = some newId) :
    rejectMatch db cid pk itemId matchId ts cands = Except.ok { db with
      facilities := db.facilities ++ [facilityFromItem item pt newId],
      matchRows := (db.matchRows.map (fun x =>
          if x.id = matchId then { x with status := MatchStatus.rejected } else x)) ++
        [fallbackMatch (nextMatchId ({ db with matchRows := db.matchRows.map (fun x =>
            if x.id = matchId then { x with status := MatchStatus.rejected } else x) }))
          item newId],
      items := db.items.map (fun i =>
        if i.id = itemId then
          { i with facility := some newId, status := ItemStatus.confirmedMatch }
        else i) } := by
  unfold rejectMatch
  rw [hfl]; dsimp only
  rw [hit]; dsimp only
  rw [hfm]; dsimp only
  rw [if_neg (by simp [hstat]), if_neg (by simp [hms])]
  rw [remaining_pending_nil db.matchRows item.id matchId hnorem]
  dsimp only [List.length_nil]
  rw [if_pos rfl, hpt]
  dsimp only
  rw [if_neg (by simp [hstat])]
  unfold saveFacility
  rw [if_pos rfl]
  dsimp only
  rw [halloc]
  rfl

/-- C2: when the item is not in POTENTIAL_MATCH or the named match is not
PENDING, both confirm and reject return a validation error and commit no
change. -/
theorem adjudication_precondition_violation
    (db : DB) (cid pk itemId matchId : Nat) (ts : String) (cands : List String)
    (fl : FacilityListRec) (item : FacilityListItemRec) (fm : FacilityMatchRec)
    (hfl : findList db cid pk = some fl)
    (hit : findItem db fl.id itemId = some item)
    (hfm : findMatch db item.id matchId = some fm)
    (hviol : item.status ≠ ItemStatus.potentialMatch ∨ fm.status ≠ MatchStatus.pending) :
    (∃ msg, confirmMatch db cid pk itemId matchId =
      Except.error (ApiError.validationErr msg)) ∧
    runResult db (confirmMatch db cid pk itemId matchId) = db ∧
    (∃ msg, rejectMatch db cid pk itemId matchId ts cands =
      Except.error (ApiError.validationErr msg)) ∧
    runResult db (rejectMatch db cid pk itemId matchId ts cands) = db := by
  by_cases hs : item.status = ItemStatus.potentialMatch
  · have hm : fm.status ≠ MatchStatus.pending := by
      rcases hviol with h | h
      · exact absurd hs h
      · exact h
    have e1 : confirmMatch db cid pk itemId matchId =
        Except.error (ApiError.validationErr "facility match status must be PENDING") := by
      unfold confirmMatch
      rw [hfl]; dsimp only
      rw [hit]; dsimp only
      rw [hfm]; dsimp only
      rw [if_neg (by simp [hs]), if_pos hm]
    have e2 : rejectMatch db cid pk itemId matchId ts cands =
        Except.error (ApiError.validationErr "facility match status must be PENDING") := by
      unfold rejectMatch
      rw [hfl]; dsimp only
      rw [hit]; dsimp only
      rw [hfm]; dsimp only
      rw [if_neg (by simp [hs]), if_pos hm]
    exact ⟨⟨_, e1⟩, by rw [e1]; rfl, ⟨_, e2⟩, by rw [e2]; rfl⟩
  · have e1 : confirmMatch db cid pk itemId matchId =
        Except.error (ApiError.validationErr
          "facility list item status must be POTENTIAL_MATCH") := by
      unfold confirmMatch
      rw [hfl]; dsimp only
      rw [hit]; dsimp only
      rw [hfm]; dsimp only
      rw [if_pos hs]
    have e2 : rejectMatch db cid pk itemId matchId ts cands =
        Except.error (ApiError.validationErr
          "facility list item status must be POTENTIAL_MATCH") := by
      unfold rejectMatch
      rw [hfl]; dsimp only
      rw [hit]; dsimp only
      rw [hfm]; dsimp only
      rw [if_pos hs]
    exact ⟨⟨_, e1⟩, by rw [e1]; rfl, ⟨_, e2⟩, by rw [e2]; rfl⟩

/-- Facts recovered from a successful list lookup. -/
theorem findList_facts (db : DB) (cid pk : Nat) (fl : FacilityListRec)
    (hfl : findList db cid pk = some fl) :
    fl ∈ db.lists ∧ fl.id = pk ∧ fl.contributor = some cid := by
  unfold findList at hfl
  have hmem := List.mem_of_find?_eq_some hfl
  refine ⟨List.mem_of_mem_filter hmem, ?_, ?_⟩
  · have h := List.find?_some hfl
    simpa using h
  · have h := (List.mem_filter.1 hmem).2
    simpa using h

/-- Facts recovered from a successful item lookup. -/
theorem findItem_facts (db : DB) (listId itemId : Nat) (item : FacilityListItemRec)
    (hit : findItem db listId itemId = some item) :
    item ∈ db.items ∧ item.id = itemId ∧ item.facilityList = listId := by
  unfold findItem at hit
  have hmem := List.mem_of_find?_eq_some hit
  refine ⟨List.mem_of_mem_filter hmem, ?_, ?_⟩
  · have h := List.find?_some hit
    simpa using h
  · have h := (List.mem_filter.1 hmem).2
    simpa using h

/-- Facts recovered from a successful match lookup. -/
theorem findMatch_facts (db : DB) (itemId matchId : Nat) (fm : FacilityMatchRec)
    (hfm : findMatch db itemId matchId = some fm) :
    fm ∈ db.matchRows ∧ fm.id = matchId ∧ fm.facilityListItem = itemId := by
  unfold findMatch at hfm
  have hmem := List.mem_of_find?_eq_some hfm
  refine ⟨List.mem_of_mem_filter hmem, ?_, ?_⟩
  · have h := List.find?_some hfm
    simpa using h
  · have h := (List.mem_filter.1 hmem).2
    simpa using h

/-- Witness for C2 at a concrete state whose item already left
POTENTIAL_MATCH. -/
theorem adjudication_precondition_violation_witness :
    (∃ msg, confirmMatch dbWrongStatus 1 1 1 1 =
      Except.error (ApiError.validationErr msg)) ∧
    runResult dbWrongStatus (confirmMatch dbWrongStatus 1 1 1 1) = dbWrongStatus ∧
    (∃ msg, rejectMatch dbWrongStatus 1 1 1 1 "ts" [] =
      Except.error (ApiError.validationErr msg)) ∧
    runResult dbWrongStatus (rejectMatch dbWrongStatus 1 1 1 1 "ts" []) = dbWrongStatus :=
  adjudication_precondition_violation dbWrongStatus 1 1 1 1 "ts" [] wList
    { wItem with status := ItemStatus.matched } wMatch1 rfl rfl rfl
    (Or.inl (by decide))

/-- C3: rejecting one of several PENDING matches changes only the named
match (to REJECTED): item rows, facility rows and every other match row
are untouched, so the item stays POTENTIAL_MATCH with its null facility
link and an unchanged processing log. -/
theorem reject_match_pending_frame
    (db : DB) (cid pk itemId matchId : Nat) (ts : String) (cands : List String)
    (fl : FacilityListRec) (item : FacilityListItemRec) (fm : FacilityMatchRec)
    (hfl : findList db cid pk = some fl)
    (hit : findItem db fl.id itemId = some item)
    (hfm : findMatch db item.id matchId = some fm)
    (hstat : item.status = ItemStatus.potentialMatch)
    (hms : fm.status = MatchStatus.pending)
    (hrem : ∃ m2 ∈ db.matchRows, m2.facilityListItem = item.id ∧ m2.id ≠ matchId ∧
      m2.status = MatchStatus.pending) :
    ∃ db', rejectMatch db cid pk itemId matchId ts cands = Except.ok db' ∧
      db'.items = db.items ∧
      db'.facilities = db.facilities ∧
      (∀ x ∈ db'.matchRows, x.id = matchId → x.status = MatchStatus.rejected) ∧
      (∀ x ∈ db.matchRows, x.id ≠ matchId → x ∈ db'.matchRows) := by
  refine ⟨_, rejectMatch_eq_ok_pending db cid pk itemId matchId ts cands fl item fm
    hfl hit hfm hstat hms hrem, rfl, rfl, ?_, ?_⟩
  · intro x hx
    obtain ⟨z, hz, rfl⟩ := List.mem_map.1 hx
    by_cases hz1 : z.id = matchId
    · simp [hz1]
    · simp only [if_neg hz1]
      intro hfalse
      exact absurd hfalse hz1
  · intro x hx hneq
    exact List.mem_map.2 ⟨x, hx, by rw [if_neg hneq]⟩

/-- Witness for C3 at a concrete state with two PENDING matches. -/
theorem reject_match_pending_frame_witness :
    ∃ db', rejectMatch dbTwoPending 1 1 1 1 "ts" [] = Except.ok db' ∧
      db'.items = dbTwoPending.items ∧
      db'.facilities = dbTwoPending.facilities ∧
      (∀ x ∈ db'.matchRows, x.id = 1 → x.status = MatchStatus.rejected) ∧
      (∀ x ∈ dbTwoPending.matchRows, x.id ≠ 1 → x ∈ db'.matchRows) :=
  reject_match_pending_frame dbTwoPending 1 1 1 1 "ts" [] wList wItem wMatch1
    rfl rfl rfl rfl rfl
    ⟨wMatch2, List.mem_cons_of_mem _ (List.mem_cons_self _ _), rfl, by decide, rfl⟩

/-- C4: rejecting the last PENDING match of a geocoded item creates exactly
one new Facility copied from the item with the item as its created-from
seed and a freshly allocated identifier, exactly one new CONFIRMED match
with confidence 1.0 and the all-candidates-rejected payload, and moves the
item to CONFIRMED_MATCH linked to the new facility. -/
theorem reject_match_creates_facility
    (db : DB) (cid pk itemId matchId : Nat) (ts : String) (cands : List String)
    (fl : FacilityListRec) (item : FacilityListItemRec) (fm : FacilityMatchRec)
    (pt : Int × Int) (newId : String)
    (hfl : findList db cid pk = some fl)
    (hit : findItem db fl.id itemId = some item)
    (hfm : findMatch db item.id matchId = some fm)
    (hstat : item.status = ItemStatus.potentialMatch)
    (hms : fm.status = MatchStatus.pending)
    (hnorem : ∀ x ∈ db.matchRows, x.facilityListItem = item.id → x.id ≠ matchId →
      x.status ≠ MatchStatus.pending)
    (hpt : item.geocodedPoint = some pt)
    (halloc : allocOarId (db.facilities.map (fun x => x.id)) cands = some newId) :
    ∃ db', rejectMatch db cid pk itemId matchId ts cands = Except.ok db' ∧
      db'.facilities = db.facilities ++ [facilityFromItem item pt newId] ∧
      (facilityFromItem item pt newId).name = item.name ∧
      (facilityFromItem item pt newId).address = item.address ∧
      (facilityFromItem item pt newId).countryCode = item.countryCode ∧
      (facilityFromItem item pt newId).location = pt ∧
      (facilityFromItem item pt newId).createdFrom = item.id ∧
      newId ∉ db.facilities.map (fun x => x.id) ∧
      (∃ nm, db'.matchRows = (db.matchRows.map (fun x =>
          if x.id = matchId then { x with status := MatchStatus.rejected } else x)) ++ [nm] ∧
        nm.facilityListItem = item.id ∧ nm.facility = newId ∧
        nm.status = MatchStatus.confirmed ∧ nm.confidence = 1 ∧
        nm.results = "all_potential_matches_rejected") ∧
      (∀ i ∈ db'.items, i.id = itemId →
        i.status = ItemStatus.confirmedMatch ∧ i.facility = some newId) := by
  refine ⟨_, rejectMatch_eq_ok_create db cid pk itemId matchId ts cands fl item fm pt newId
    hfl hit hfm hstat hms hnorem hpt halloc, rfl, rfl, rfl, rfl, rfl, rfl,
    allocOarId_not_mem _ cands newId halloc, ⟨_, rfl, rfl, rfl, rfl, rfl, rfl⟩, ?_⟩
  intro i hi
  obtain ⟨j, hj, rfl⟩ := List.mem_map.1 hi
  by_cases hj1 : j.id = itemId
  · simp [hj1]
  · simp only [if_neg hj1]
    intro hfalse
    exact absurd hfalse hj1

/-- Witness for C4 at a concrete state with one PENDING match and a
geocoded point. -/
theorem reject_match_creates_facility_witness :
    ∃ db', rejectMatch dbOnePending 1 1 1 1 "ts" ["US001", "US002"] = Except.ok db' ∧
      db'.facilities = dbOnePending.facilities ++ [facilityFromItem wItem (1, 2) "US002"] ∧
      (facilityFromItem wItem (1, 2) "US002").name = wItem.name ∧
      (facilityFromItem wItem (1, 2) "US002").address = wItem.address ∧
      (facilityFromItem wItem (1, 2) "US002").countryCode = wItem.countryCode ∧
      (facilityFromItem wItem (1, 2) "US002").location = (1, 2) ∧
      (facilityFromItem wItem (1, 2) "US002").createdFrom = wItem.id ∧
      "US002" ∉ dbOnePending.facilities.map (fun x => x.id) ∧
      (∃ nm, db'.matchRows = (dbOnePending.matchRows.map (fun x =>
          if x.id = 1 then { x with status := MatchStatus.rejected } else x)) ++ [nm] ∧
        nm.facilityListItem = wItem.id ∧ nm.facility = "US002" ∧
        nm.status = MatchStatus.confirmed ∧ nm.confidence = 1 ∧
        nm.results = "all_potential_matches_rejected") ∧
      (∀ i ∈ db'.items, i.id = 1 →
        i.status = ItemStatus.confirmedMatch ∧ i.facility = some "US002") :=
  reject_match_creates_facility dbOnePending 1 1 1 1 "ts" ["US001", "US002"]
    wList wItem wMatch1 (1, 2) "US002" rfl rfl rfl rfl rfl (by decide) rfl (by decide)

/-- Counterexample for C5 as stated: at a concrete reject-to-exhaustion
call on an item with no geocoded point, the recorded failure reason is the
source message, which differs from the message quoted by the claim. -/
theorem reject_error_message_counterexample :
    (runResult dbNoPoint (rejectMatch dbNoPoint 1 1 1 1 "ts" [])).items.map
      (fun i => i.processingResults.map (fun r => (r.error, r.message))) =
      [[(true, sourceRejectMsg)]] ∧
    sourceRejectMsg ≠ specRejectMsg := by
  constructor
  · rfl
  · decide

/-- C5 (amended): rejecting the last PENDING match of an item with no
geocoded point moves the item to ERROR_MATCHING, appends exactly one
error-flagged processing result whose message is the source string
"Unable to create a new facility from an item with no geocoded location",
creates no Facility and no match, and leaves the facility link null. -/
theorem reject_match_error_matching
    (db : DB) (cid pk itemId matchId : Nat) (ts : String) (cands : List String)
    (fl : FacilityListRec) (item : FacilityListItemRec) (fm : FacilityMatchRec)
    (hnd : (db.items.map (fun i => i.id)).Nodup)
    (hfl : findList db cid pk = some fl)
    (hit : findItem db fl.id itemId = some item)
    (hfm : findMatch db item.id matchId = some fm)
    (hstat : item.status = ItemStatus.potentialMatch)
    (hms : fm.status = MatchStatus.pending)
    (hnorem : ∀ x ∈ db.matchRows, x.facilityListItem = item.id → x.id ≠ matchId →
      x.status ≠ MatchStatus.pending)
    (hdisj : item.geocodedPoint = none ∨ item.status = ItemStatus.geocodedNoResults)
    (hfac : item.facility = none) :
    ∃ db', rejectMatch db cid pk itemId matchId ts cands = Except.ok db' ∧
      db'.facilities = db.facilities ∧
      db'.matchRows = db.matchRows.map (fun x =>
        if x.id = matchId then { x with status := MatchStatus.rejected } else x) ∧
      (∀ i ∈ db'.items, i.id = itemId →
        i.status = ItemStatus.errorMatching ∧ i.facility = none ∧
        i.processingResults = item.processingResults ++ [rejectErrEntry ts]) ∧
      (rejectErrEntry ts).error = true ∧
      (rejectErrEntry ts).message = sourceRejectMsg := by
  have hpt : item.geocodedPoint = none := by
    rcases hdisj with h | h
    · exact h
    · exact absurd (hstat.symm.trans h) (by decide)
  refine ⟨_, rejectMatch_eq_ok_error db cid pk itemId matchId ts cands fl item fm
    hfl hit hfm hstat hms hnorem hpt, rfl, rfl, ?_, rfl, rfl⟩
  intro i hi
  obtain ⟨j, hj, rfl⟩ := List.mem_map.1 hi
  by_cases hj1 : j.id = itemId
  · obtain ⟨hitem_mem, hitem_id, _⟩ := findItem_facts db fl.id itemId item hit
    have hje : j = item :=
      List.inj_on_of_nodup_map hnd hj hitem_mem (by rw [hj1, hitem_id])
    subst hje
    simp [hj1, hfac]
  · simp only [if_neg hj1]
    intro hfalse
    exact absurd hfalse hj1

/-- Witness for the amended C5 at a concrete state. -/
theorem reject_match_error_matching_witness :
    ∃ db', rejectMatch dbNoPoint 1 1 1 1 "ts" [] = Except.ok db' ∧
      db'.facilities = dbNoPoint.facilities ∧
      db'.matchRows = dbNoPoint.matchRows.map (fun x =>
        if x.id = 1 then { x with status := MatchStatus.rejected } else x) ∧
      (∀ i ∈ db'.items, i.id = 1 →
        i.status = ItemStatus.errorMatching ∧ i.facility = none ∧
        i.processingResults = wItemNoPt.processingResults ++ [rejectErrEntry "ts"]) ∧
      (rejectErrEntry "ts").error = true ∧
      (rejectErrEntry "ts").message = sourceRejectMsg :=
  reject_match_error_matching dbNoPoint 1 1 1 1 "ts" [] wList wItemNoPt wMatch1
    (by decide) rfl rfl rfl rfl rfl (by decide) (Or.inl rfl) rfl

/-- C10: the processing result appended on the reject-to-exhaustion error
path carries the confirm action kind (there is no reject-specific kind in
the source) and uses one timestamp for both started_at and finished_at. -/
theorem reject_error_entry_action
    (db : DB) (cid pk itemId matchId : Nat) (ts : String) (cands : List String)
    (fl : FacilityListRec) (item : FacilityListItemRec) (fm : FacilityMatchRec)
    (hfl : findList db cid pk = some fl)
    (hit : findItem db fl.id itemId = some item)
    (hfm : findMatch db item.id matchId = some fm)
    (hstat : item.status = ItemStatus.potentialMatch)
    (hms : fm.status = MatchStatus.pending)
    (hnorem : ∀ x ∈ db.matchRows, x.facilityListItem = item.id → x.id ≠ matchId →
      x.status ≠ MatchStatus.pending)
    (hdisj : item.geocodedPoint = none ∨ item.status = ItemStatus.geocodedNoResults) :
    ∃ db', rejectMatch db cid pk itemId matchId ts cands = Except.ok db' ∧
      (∀ i ∈ db'.items, i.id = itemId →
        ∃ j ∈ db.items, ∃ e, i.processingResults = j.processingResults ++ [e] ∧
          e.action = ProcessingAction.confirmAction ∧
          e.startedAt = ts ∧ e.finishedAt = ts ∧ e.startedAt = e.finishedAt) := by
  have hpt : item.geocodedPoint = none := by
    rcases hdisj with h | h
    · exact h
    · exact absurd (hstat.symm.trans h) (by decide)
  refine ⟨_, rejectMatch_eq_ok_error db cid pk itemId matchId ts cands fl item fm
    hfl hit hfm hstat hms hnorem hpt, ?_⟩
  intro i hi
  obtain ⟨j, hj, rfl⟩ := List.mem_map.1 hi
  by_cases hj1 : j.id = itemId
  · simp only [if_pos hj1]
    exact fun _ => ⟨j, hj, rejectErrEntry ts, rfl, rfl, rfl, rfl, rfl⟩
  · simp only [if_neg hj1]
    intro hfalse
    exact absurd hfalse hj1

/-- Witness for C10 at a concrete state. -/
theorem reject_error_entry_action_witness :
    ∃ db', rejectMatch dbNoPoint 1 1 1 1 "ts" [] = Except.ok db' ∧
      (∀ i ∈ db'.items, i.id = 1 →
        ∃ j ∈ dbNoPoint.items, ∃ e, i.processingResults = j.processingResults ++ [e] ∧
          e.action = ProcessingAction.confirmAction ∧
          e.startedAt = "ts" ∧ e.finishedAt = "ts" ∧ e.startedAt = e.finishedAt) :=
  reject_error_entry_action dbNoPoint 1 1 1 1 "ts" [] wList wItemNoPt wMatch1
    rfl rfl rfl rfl rfl (by decide) (Or.inl rfl)

/-- Frame fact for Facility.save: saving a facility touches only the
facilities table. -/
theorem saveFacility_frame (cands : List String) (db : DB) (f : FacilityRec)
    (db2 : DB) (f2 : FacilityRec) (h : saveFacility cands db f = some (db2, f2)) :
    db2.matchRows = db.matchRows ∧ db2.items = db.items := by
  unfold saveFacility at h
  split at h
  · split at h
    · exact absurd h (by simp)
    · cases h
      exact ⟨rfl, rfl⟩
  · cases h
    exact ⟨rfl, rfl⟩

/-- Setting the named match to REJECTED cannot increase the number of
AUTOMATIC or CONFIRMED matches of any item. -/
theorem count_after_reject_le (l : List FacilityMatchRec) (itemId matchId : Nat) :
    ((l.map (fun x => if x.id = matchId then
        { x with status := MatchStatus.rejected } else x)).filter
      (fun m => m.facilityListItem == itemId &&
        (m.status == MatchStatus.automatic || m.status == MatchStatus.confirmed))).length ≤
    (l.filter (fun m => m.facilityListItem == itemId &&
      (m.status == MatchStatus.automatic || m.status == MatchStatus.confirmed))).length := by
  apply length_filter_map_le
  intro x hx hp
  by_cases hz : x.id = matchId
  · rw [if_pos hz] at hp
    simp at hp
  · rwa [if_neg hz] at hp

/-- Counterexample for C6 as stated: a POTENTIAL_MATCH item already holding
one CONFIRMED match (at most one, so the hypothesis of the claim holds)
ends up with two CONFIRMED matches after rejecting its last PENDING match,
because the creation branch adds a new CONFIRMED match without checking
the existing ones. -/
theorem exclusivity_counterexample :
    exclusiveCount dbConfirmedPending 1 ≤ 1 ∧
    exclusiveCount (runResult dbConfirmedPending
      (rejectMatch dbConfirmedPending 1 1 1 1 "ts" ["US002"])) 1 = 2 := by
  constructor
  · decide
  · rfl

/-- C6 (amended): confirm always leaves at most one AUTOMATIC or CONFIRMED
match on the adjudicated item; reject leaves at most one provided no match
of the item held AUTOMATIC or CONFIRMED status before the call (true of
reachable POTENTIAL_MATCH items, whose matches are all PENDING or
REJECTED). -/
theorem exclusivity_amended
    (db : DB) (cid pk itemId matchId : Nat) (ts : String) (cands : List String)
    (db' : DB) (hnd : (db.matchRows.map (fun m => m.id)).Nodup) :
    (confirmMatch db cid pk itemId matchId = Except.ok db' →
      exclusiveCount db' itemId ≤ 1) ∧
    (exclusiveCount db itemId = 0 →
      rejectMatch db cid pk itemId matchId ts cands = Except.ok db' →
      exclusiveCount db' itemId ≤ 1) := by
  constructor
  · intro hok
    unfold confirmMatch at hok
    split at hok
    · exact absurd hok (by simp)
    next fl hfl =>
    split at hok
    · exact absurd hok (by simp)
    next item hit =>
    split at hok
    · exact absurd hok (by simp)
    next fm hfm =>
    split at hok
    · exact absurd hok (by simp)
    split at hok
    · exact absurd hok (by simp)
    cases hok
    have hii : item.id = itemId := (findItem_facts db fl.id itemId item hit).2.1
    unfold exclusiveCount
    dsimp only
    rw [List.map_map]
    calc ((db.matchRows.map _).filter _).length
        ≤ (db.matchRows.filter (fun x => x.id == matchId)).length := by
          apply length_filter_map_le
          intro x hx hp
          simp only [Function.comp_apply] at hp
          by_cases hz1 : x.id = matchId
          · simp [hz1]
          · rw [if_neg hz1] at hp
            by_cases hz2 : x.facilityListItem = item.id ∧ x.id ≠ matchId
            · rw [if_pos hz2] at hp
              simp at hp
            · rw [if_neg hz2] at hp
              have hfli2 : x.facilityListItem = item.id := by
                have hfli : (x.facilityListItem == itemId) = true := by
                  simp only [Bool.and_eq_true] at hp
                  exact hp.1
                rw [hii]
                exact beq_iff_eq.1 hfli
              exact absurd ⟨hfli2, hz1⟩ hz2
      _ ≤ 1 := length_filter_key_le_one (fun m => m.id) matchId db.matchRows hnd
  · intro hzero hok
    unfold exclusiveCount at hzero
    have hznil : db.matchRows.filter (fun m => m.facilityListItem == itemId &&
        (m.status == MatchStatus.automatic || m.status == MatchStatus.confirmed)) = [] :=
      List.eq_nil_of_length_eq_zero hzero
    have hcle := count_after_reject_le db.matchRows itemId matchId
    rw [hznil] at hcle
    simp only [List.length_nil, Nat.le_zero] at hcle
    unfold rejectMatch at hok
    split at hok
    · exact absurd hok (by simp)
    next fl hfl =>
    split at hok
    · exact absurd hok (by simp)
    next item hit =>
    split at hok
    · exact absurd hok (by simp)
    next fm hfm =>
    split at hok
    · exact absurd hok (by simp)
    split at hok
    · exact absurd hok (by simp)
    split at hok
    · -- geocoded point is null: error branch or pending branch
      dsimp only at hok
      split at hok
      · cases hok
        unfold exclusiveCount
        dsimp only
        rw [hcle]
        decide
      · cases hok
        unfold exclusiveCount
        dsimp only
        rw [hcle]
        decide
    next pt heqpt =>
      split at hok
      · -- status GEOCODED_NO_RESULTS: error branch or pending branch
        dsimp only at hok
        split at hok
        · cases hok
          unfold exclusiveCount
          dsimp only
          rw [hcle]
          decide
        · cases hok
          unfold exclusiveCount
          dsimp only
          rw [hcle]
          decide
      · -- creation branch or pending branch
        dsimp only at hok
        split at hok
        · -- no PENDING remains: the saveFacility match
          split at hok
          · exact absurd hok (by simp)
          next db2 fac hsave =>
            cases hok
            have hframe := saveFacility_frame cands _ _ db2 fac hsave
            have hmr := hframe.1
            dsimp only at hmr
            unfold exclusiveCount
            dsimp only
            rw [List.filter_append, List.length_append, hmr, hcle]
            simpa using List.length_filter_le _ _
        · cases hok
          unfold exclusiveCount
          dsimp only
          rw [hcle]
          decide

/-- Witness for the amended C6 at a concrete state. -/
theorem exclusivity_amended_witness :
    exclusiveCount (runResult dbTwoPending (confirmMatch dbTwoPending 1 1 1 1)) 1 ≤ 1 :=
  (exclusivity_amended dbTwoPending 1 1 1 1 "ts" []
    (runResult dbTwoPending (confirmMatch dbTwoPending 1 1 1 1)) (by decide)).1 rfl

/-- C7: the Facility.save allocator never assigns an identifier already
present among existing facilities; across any sequence of saves of rows
with empty identifiers (10,000 included) the identifier column stays
duplicate-free; and a save of a row whose identifier is non-empty keeps
that identifier unchanged. -/
theorem oar_id_allocator_spec :
    (∀ (cands : List String) (db : DB) (f : FacilityRec) (db2 : DB) (f2 : FacilityRec),
      f.id = "" → saveFacility cands db f = some (db2, f2) →
      f2.id ∉ db.facilities.map (fun x => x.id)) ∧
    (∀ (jobs : List (List String × FacilityRec)) (db db2 : DB),
      (∀ j ∈ jobs, (Prod.snd j).id = "") →
      (db.facilities.map (fun x => x.id)).Nodup →
      saveAll jobs db = some db2 →
      (db2.facilities.map (fun x => x.id)).Nodup) ∧
    (∀ (cands : List String) (db : DB) (f : FacilityRec),
      f.id ≠ "" → saveFacility cands db f =
        some ({ db with facilities := db.facilities ++ [f] }, f)) := by
  refine ⟨?_, ?_, ?_⟩
  · intro cands db f db2 f2 hid h
    unfold saveFacility at h
    rw [if_pos hid] at h
    split at h
    · exact absurd h (by simp)
    next newId halloc =>
      cases h
      simpa using allocOarId_not_mem _ cands newId halloc
  · intro jobs
    induction jobs with
    | nil =>
      intro db db2 hall hnd h
      unfold saveAll at h
      cases h
      exact hnd
    | cons j rest ih =>
      intro db db2 hall hnd h
      obtain ⟨cands, f⟩ := j
      unfold saveAll at h
      split at h
      · exact absurd h (by simp)
      next dbMid f2 hsave =>
        refine ih dbMid db2 (fun x hx => hall x (List.mem_cons_of_mem _ hx)) ?_ h
        have hid : f.id = "" := hall (cands, f) (List.mem_cons_self _ _)
        unfold saveFacility at hsave
        rw [if_pos hid] at hsave
        split at hsave
        · exact absurd hsave (by simp)
        next newId halloc =>
          cases hsave
          dsimp only
          rw [List.map_append]
          rw [List.nodup_append]
          refine ⟨hnd, List.nodup_singleton _, ?_⟩
          intro a ha hb
          rw [List.map_cons, List.map_nil, List.mem_singleton] at hb
          subst hb
          exact allocOarId_not_mem _ cands _ halloc ha
  · intro cands db f hid
    unfold saveFacility
    rw [if_neg hid]

/-- Witness for C7 exercising all three parts at concrete inputs. -/
theorem oar_id_allocator_spec_witness :
    "US002" ∉ (dbOnePending.facilities.map (fun x => x.id)) ∧
    (({ dbOnePending with facilities := dbOnePending.facilities ++
        [{ wFacNew with id := "US002" }] } : DB).facilities.map (fun x => x.id)).Nodup ∧
    saveFacility [] dbOnePending wFac =
      some ({ dbOnePending with facilities := dbOnePending.facilities ++ [wFac] }, wFac) := by
  refine ⟨?_, ?_, ?_⟩
  · exact oar_id_allocator_spec.1 ["US001", "US002"] dbOnePending wFacNew
      { dbOnePending with facilities := dbOnePending.facilities ++
        [{ wFacNew with id := "US002" }] }
      { wFacNew with id := "US002" } rfl rfl
  · exact oar_id_allocator_spec.2.1 [(["US001", "US002"], wFacNew)] dbOnePending
      { dbOnePending with facilities := dbOnePending.facilities ++
        [{ wFacNew with id := "US002" }] }
      (by decide) (by decide) rfl
  · exact oar_id_allocator_spec.2.2 [] dbOnePending wFac (by decide)

/-- C8: uploading a list that replaces an existing list L fails with a
validation error and commits nothing when L is already replaced by some
list; otherwise one state transition creates the new list active (with its
replaces link set to L) and flips L to inactive. -/
theorem upload_list_replaces_spec
    (db : DB) (cid : Nat) (parsedHeader : List String) (listName : String)
    (fileLines : List String) (rid : Nat) (old : FacilityListRec) (c : ContributorRec)
    (hhdr : requiredFieldsPresent parsedHeader = true)
    (hcon : db.contributors.find? (fun x => x.id == cid) = some c)
    (hold : findList db cid rid = some old) :
    ((∃ l2 ∈ db.lists, l2.replaces = some old.id) →
      (∃ msg, uploadList db cid parsedHeader listName fileLines (some rid) =
        Except.error (ApiError.validationErr msg)) ∧
      runResult db (uploadList db cid parsedHeader listName fileLines (some rid)) = db) ∧
    ((∀ l2 ∈ db.lists, l2.replaces ≠ some old.id) →
      ∃ db', uploadList db cid parsedHeader listName fileLines (some rid) =
          Except.ok db' ∧
        (∃ nl, db'.lists = (db.lists.map (fun l =>
            if l.id = old.id then { l with isActive := false } else l)) ++ [nl] ∧
          nl.isActive = true ∧ nl.replaces = some old.id ∧ nl.contributor = some cid) ∧
        (∀ l ∈ db'.lists, l.id = old.id → l.isActive = false)) := by
  constructor
  · rintro ⟨l2, hl2, hrep⟩
    have hlen : (db.lists.filter (fun l => l.replaces == some old.id)).length > 0 := by
      apply List.length_pos.2
      apply List.ne_nil_of_mem
      exact List.mem_filter.2 ⟨hl2, by simp [hrep]⟩
    have e : uploadList db cid parsedHeader listName fileLines (some rid) =
        Except.error (ApiError.validationErr "has already been replaced.") := by
      unfold uploadList
      rw [if_neg (by simp [hhdr])]
      rw [hcon]; dsimp only
      rw [hold]; dsimp only
      rw [if_pos hlen]
    exact ⟨⟨_, e⟩, by rw [e]; rfl⟩
  · intro hnone
    have hnil : db.lists.filter (fun l => l.replaces == some old.id) = [] := by
      rw [List.filter_eq_nil_iff]
      intro a ha
      simp [hnone a ha]
    have e : uploadList db cid parsedHeader listName fileLines (some rid) =
        Except.ok (insertList db cid listName fileLines (some old.id)) := by
      unfold uploadList
      rw [if_neg (by simp [hhdr])]
      rw [hcon]; dsimp only
      rw [hold]; dsimp only
      rw [hnil]
      dsimp only [List.length_nil]
      rw [if_neg (lt_irrefl 0)]
    have hlt : old.id < nextListId db := by
      have hmem : old.id ∈ db.lists.map (fun l => l.id) :=
        List.mem_map_of_mem _ (findList_facts db cid rid old hold).1
      exact Nat.lt_succ_of_le (le_foldr_max old.id _ hmem)
    have hneq : nextListId db ≠ old.id := Ne.symm (Nat.ne_of_lt hlt)
    have hlists : (insertList db cid listName fileLines (some old.id)).lists =
        (db.lists.map (fun l => if l.id = old.id then
          { l with isActive := false } else l)) ++
        [⟨nextListId db, some cid, listName, true, true, some old.id⟩] := by
      unfold insertList
      dsimp only
      rw [List.map_append, List.map_cons, List.map_nil, if_neg hneq]
    refine ⟨_, e, ⟨⟨nextListId db, some cid, listName, true, true, some old.id⟩,
      hlists, rfl, rfl, rfl⟩, ?_⟩
    intro l hl hlid
    rw [hlists] at hl
    rcases List.mem_append.1 hl with hl1 | hl1
    · obtain ⟨z, hz, rfl⟩ := List.mem_map.1 hl1
      by_cases hz1 : z.id = old.id
      · simp [hz1]
      · rw [if_neg hz1] at hlid ⊢
        exact absurd hlid hz1
    · rw [List.mem_singleton] at hl1
      subst hl1
      exact absurd hlid hneq

/-- Witness for C8 at a concrete state: replacing the only list succeeds
and deactivates it. -/
theorem upload_list_replaces_spec_witness :
    ∃ db', uploadList dbTwoPending 1 ["country", "name", "address"] "L2"
        ["h", "r1"] (some 1) = Except.ok db' ∧
      (∃ nl, db'.lists = (dbTwoPending.lists.map (fun l =>
          if l.id = wList.id then { l with isActive := false } else l)) ++ [nl] ∧
        nl.isActive = true ∧ nl.replaces = some wList.id ∧ nl.contributor = some 1) ∧
      (∀ l ∈ db'.lists, l.id = wList.id → l.isActive = false) :=
  (upload_list_replaces_spec dbTwoPending 1 ["country", "name", "address"] "L2"
    ["h", "r1"] 1 wList wContrib (by decide) rfl rfl).2 (by decide)

/-- A string has length zero exactly when it is empty. -/
theorem string_length_zero_iff (s : String) : s.length = 0 ↔ s = "" := by
  constructor
  · intro h
    cases s with
    | mk data =>
      have hd : data = [] := List.eq_nil_of_length_eq_zero h
      rw [hd]
  · intro h
    rw [h]
    rfl

/-- Membership in the shared facilitymatch_set query of the derived views. -/
theorem mem_facilityItemRows_iff (db : DB) (fac : FacilityRec)
    (hndI : (db.items.map (fun i => i.id)).Nodup) (i : FacilityListItemRec) :
    i ∈ facilityItemRows db fac ↔
      ∃ m ∈ db.matchRows, m.facility = fac.id ∧
        (m.status = MatchStatus.automatic ∨ m.status = MatchStatus.confirmed) ∧
        i ∈ db.items ∧ i.id = m.facilityListItem := by
  unfold facilityItemRows
  rw [List.mem_filterMap]
  constructor
  · rintro ⟨m, hm, hfind⟩
    have hmf := List.mem_filter.1 hm
    have hp := hmf.2
    simp only [Bool.and_eq_true, Bool.or_eq_true, beq_iff_eq] at hp
    have hfacts := (find_by_key_iff (fun x => x.id) db.items hndI m.facilityListItem i).1 hfind
    exact ⟨m, hmf.1, hp.1, hp.2, hfacts.1, hfacts.2⟩
  · rintro ⟨m, hm, hfac, hstat, hmem, hid⟩
    refine ⟨m, List.mem_filter.2 ⟨hm, ?_⟩, ?_⟩
    · rcases hstat with h | h <;> simp [hfac, h]
    · exact (find_by_key_iff (fun x => x.id) db.items hndI m.facilityListItem i).2 ⟨hmem, hid⟩

/-- The active-and-public gate of the derived views, as a membership
statement over the lists table. -/
theorem list_gate_iff (db : DB) (hndL : (db.lists.map (fun l => l.id)).Nodup)
    (i : FacilityListItemRec) :
    (match db.lists.find? (fun l => l.id == i.facilityList) with
     | some l => l.isActive && l.isPublic
     | none => false) = true ↔
    ∃ l ∈ db.lists, l.id = i.facilityList ∧ l.isActive = true ∧ l.isPublic = true := by
  constructor
  · intro h
    cases hfl : db.lists.find? (fun l => l.id == i.facilityList) with
    | none => rw [hfl] at h; cases h
    | some l =>
      rw [hfl] at h
      obtain ⟨hl, hid⟩ := (find_by_key_iff (fun l => l.id) db.lists hndL i.facilityList l).1 hfl
      simp only [Bool.and_eq_true] at h
      exact ⟨l, hl, hid, h.1, h.2⟩
  · rintro ⟨l, hl, hid, ha, hp⟩
    rw [(find_by_key_iff (fun l => l.id) db.lists hndL i.facilityList l).2 ⟨hl, hid⟩]
    dsimp only
    rw [ha, hp]
    rfl

/-- C9: the three derived views draw only from matches of the facility with
status AUTOMATIC or CONFIRMED whose item belongs to an active and public
list; other_names and other_addresses are duplicate-free and keep only
non-empty values different from the facility own name or address;
contributors is the duplicate-free set of contributing organizations under
the same restriction; and with no qualifying match all three are empty. -/
theorem derived_views_spec (db : DB) (fac : FacilityRec)
    (hndI : (db.items.map (fun i => i.id)).Nodup)
    (hndL : (db.lists.map (fun l => l.id)).Nodup)
    (hndC : (db.contributors.map (fun c => c.id)).Nodup) :
    (∀ x, x ∈ otherNames db fac ↔
      ∃ m ∈ db.matchRows, ∃ i ∈ db.items, ∃ l ∈ db.lists,
        m.facility = fac.id ∧
        (m.status = MatchStatus.automatic ∨ m.status = MatchStatus.confirmed) ∧
        i.id = m.facilityListItem ∧ l.id = i.facilityList ∧
        l.isActive = true ∧ l.isPublic = true ∧
        i.name = x ∧ x ≠ "" ∧ x ≠ fac.name) ∧
    (∀ x, x ∈ otherAddresses db fac ↔
      ∃ m ∈ db.matchRows, ∃ i ∈ db.items, ∃ l ∈ db.lists,
        m.facility = fac.id ∧
        (m.status = MatchStatus.automatic ∨ m.status = MatchStatus.confirmed) ∧
        i.id = m.facilityListItem ∧ l.id = i.facilityList ∧
        l.isActive = true ∧ l.isPublic = true ∧
        i.address = x ∧ x ≠ "" ∧ x ≠ fac.address) ∧
    (∀ e, e ∈ contributorsView db fac ↔
      ∃ m ∈ db.matchRows, ∃ i ∈ db.items, ∃ l ∈ db.lists, ∃ c ∈ db.contributors,
        m.facility = fac.id ∧
        (m.status = MatchStatus.automatic ∨ m.status = MatchStatus.confirmed) ∧
        i.id = m.facilityListItem ∧ l.id = i.facilityList ∧
        l.isActive = true ∧ l.isPublic = true ∧
        l.contributor = some c.id ∧
        e = (c.name ++ " (" ++ l.name ++ ")", c.adminId)) ∧
    (otherNames db fac).Nodup ∧ (otherAddresses db fac).Nodup ∧
    (contributorsView db fac).Nodup ∧
    ((∀ m ∈ db.matchRows, m.facility = fac.id →
        m.status ≠ MatchStatus.automatic ∧ m.status ≠ MatchStatus.confirmed) →
      otherNames db fac = [] ∧ otherAddresses db fac = [] ∧
      contributorsView db fac = []) := by
  have hiffN : ∀ x, x ∈ otherNames db fac ↔
      ∃ m ∈ db.matchRows, ∃ i ∈ db.items, ∃ l ∈ db.lists,
        m.facility = fac.id ∧
        (m.status = MatchStatus.automatic ∨ m.status = MatchStatus.confirmed) ∧
        i.id = m.facilityListItem ∧ l.id = i.facilityList ∧
        l.isActive = true ∧ l.isPublic = true ∧
        i.name = x ∧ x ≠ "" ∧ x ≠ fac.name := by
    intro x
    unfold otherNames
    rw [List.mem_dedup, List.mem_map]
    constructor
    · rintro ⟨i, hi, rfl⟩
      obtain ⟨hirows, hcond⟩ := List.mem_filter.1 hi
      simp only [Bool.and_eq_true, bne_iff_ne, ne_eq] at hcond
      obtain ⟨⟨hlen, hneq⟩, hgate⟩ := hcond
      obtain ⟨l, hl, hlid, hact, hpub⟩ := (list_gate_iff db hndL i).1 hgate
      obtain ⟨m, hm, hmfac, hmstat, himem, hiid⟩ :=
        (mem_facilityItemRows_iff db fac hndI i).1 hirows
      exact ⟨m, hm, i, himem, l, hl, hmfac, hmstat, hiid, hlid, hact, hpub, rfl,
        fun h => hlen (by rw [h]; rfl), hneq⟩
    · rintro ⟨m, hm, i, hi, l, hl, hmfac, hmstat, hiid, hlid, hact, hpub, rfl, hne, hneself⟩
      refine ⟨i, List.mem_filter.2
        ⟨(mem_facilityItemRows_iff db fac hndI i).2 ⟨m, hm, hmfac, hmstat, hi, hiid⟩, ?_⟩, rfl⟩
      simp only [Bool.and_eq_true, bne_iff_ne, ne_eq]
      exact ⟨⟨fun h0 => hne ((string_length_zero_iff i.name).1 h0), hneself⟩,
        (list_gate_iff db hndL i).2 ⟨l, hl, hlid, hact, hpub⟩⟩
  have hiffA : ∀ x, x ∈ otherAddresses db fac ↔
      ∃ m ∈ db.matchRows, ∃ i ∈ db.items, ∃ l ∈ db.lists,
        m.facility = fac.id ∧
        (m.status = MatchStatus.automatic ∨ m.status = MatchStatus.confirmed) ∧
        i.id = m.facilityListItem ∧ l.id = i.facilityList ∧
        l.isActive = true ∧ l.isPublic = true ∧
        i.address = x ∧ x ≠ "" ∧ x ≠ fac.address := by
    intro x
    unfold otherAddresses
    rw [List.mem_dedup, List.mem_map]
    constructor
    · rintro ⟨i, hi, rfl⟩
      obtain ⟨hirows, hcond⟩ := List.mem_filter.1 hi
      simp only [Bool.and_eq_true, bne_iff_ne, ne_eq] at hcond
      obtain ⟨⟨hlen, hneq⟩, hgate⟩ := hcond
      obtain ⟨l, hl, hlid, hact, hpub⟩ := (list_gate_iff db hndL i).1 hgate
      obtain ⟨m, hm, hmfac, hmstat, himem, hiid⟩ :=
        (mem_facilityItemRows_iff db fac hndI i).1 hirows
      exact ⟨m, hm, i, himem, l, hl, hmfac, hmstat, hiid, hlid, hact, hpub, rfl,
        fun h => hlen (by rw [h]; rfl), hneq⟩
    · rintro ⟨m, hm, i, hi, l, hl, hmfac, hmstat, hiid, hlid, hact, hpub, rfl, hne, hneself⟩
      refine ⟨i, List.mem_filter.2
        ⟨(mem_facilityItemRows_iff db fac hndI i).2 ⟨m, hm, hmfac, hmstat, hi, hiid⟩, ?_⟩, rfl⟩
      simp only [Bool.and_eq_true, bne_iff_ne, ne_eq]
      exact ⟨⟨fun h0 => hne ((string_length_zero_iff i.address).1 h0), hneself⟩,
        (list_gate_iff db hndL i).2 ⟨l, hl, hlid, hact, hpub⟩⟩
  have hiffC : ∀ e, e ∈ contributorsView db fac ↔
      ∃ m ∈ db.matchRows, ∃ i ∈ db.items, ∃ l ∈ db.lists, ∃ c ∈ db.contributors,
        m.facility = fac.id ∧
        (m.status = MatchStatus.automatic ∨ m.status = MatchStatus.confirmed) ∧
        i.id = m.facilityListItem ∧ l.id = i.facilityList ∧
        l.isActive = true ∧ l.isPublic = true ∧
        l.contributor = some c.id ∧
        e = (c.name ++ " (" ++ l.name ++ ")", c.adminId) := by
    intro e
    unfold contributorsView
    rw [List.mem_dedup, List.mem_filterMap]
    constructor
    · rintro ⟨i, hirows, hfi⟩
      cases hfl : db.lists.find? (fun l => l.id == i.facilityList) with
      | none =>
        rw [hfl] at hfi
        exact absurd hfi (by simp)
      | some l =>
        rw [hfl] at hfi
        dsimp only at hfi
        by_cases hap : (l.isActive && l.isPublic) = true
        · rw [if_pos hap] at hfi
          cases hlc : l.contributor with
          | none =>
            rw [hlc] at hfi
            exact absurd hfi (by simp)
          | some cid2 =>
            rw [hlc] at hfi
            dsimp only at hfi
            cases hfc : db.contributors.find? (fun c => c.id == cid2) with
            | none =>
              rw [hfc] at hfi
              exact absurd hfi (by simp)
            | some cc =>
              rw [hfc] at hfi
              dsimp only at hfi
              obtain ⟨m, hm, hmfac, hmstat, himem, hiid⟩ :=
                (mem_facilityItemRows_iff db fac hndI i).1 hirows
              obtain ⟨hlmem, hlid⟩ :=
                (find_by_key_iff (fun l => l.id) db.lists hndL i.facilityList l).1 hfl
              obtain ⟨hcmem, hcid⟩ :=
                (find_by_key_iff (fun c => c.id) db.contributors hndC cid2 cc).1 hfc
              simp only [Bool.and_eq_true] at hap
              cases hfi
              exact ⟨m, hm, i, himem, l, hlmem, cc, hcmem, hmfac, hmstat, hiid, hlid,
                hap.1, hap.2, by rw [hlc, hcid], rfl⟩
        · rw [if_neg hap] at hfi
          exact absurd hfi (by simp)
    · rintro ⟨m, hm, i, hi, l, hl, cc, hc, hmfac, hmstat, hiid, hlid, hact, hpub, hlc, he⟩
      refine ⟨i, (mem_facilityItemRows_iff db fac hndI i).2 ⟨m, hm, hmfac, hmstat, hi, hiid⟩, ?_⟩
      rw [(find_by_key_iff (fun l => l.id) db.lists hndL i.facilityList l).2 ⟨hl, hlid⟩]
      dsimp only
      rw [if_pos (by rw [hact, hpub]; rfl)]
      rw [hlc]
      dsimp only
      rw [(find_by_key_iff (fun c => c.id) db.contributors hndC cc.id cc).2 ⟨hc, rfl⟩]
      dsimp only
      rw [he]
  refine ⟨hiffN, hiffA, hiffC, List.nodup_dedup _, List.nodup_dedup _,
    List.nodup_dedup _, ?_⟩
  intro hnone
  refine ⟨?_, ?_, ?_⟩
  · rw [List.eq_nil_iff_forall_not_mem]
    intro x hx
    obtain ⟨m, hm, i, hi, l, hl, hmfac, hmstat, _⟩ := (hiffN x).1 hx
    rcases hmstat with h | h
    · exact (hnone m hm hmfac).1 h
    · exact (hnone m hm hmfac).2 h
  · rw [List.eq_nil_iff_forall_not_mem]
    intro x hx
    obtain ⟨m, hm, i, hi, l, hl, hmfac, hmstat, _⟩ := (hiffA x).1 hx
    rcases hmstat with h | h
    · exact (hnone m hm hmfac).1 h
    · exact (hnone m hm hmfac).2 h
  · rw [List.eq_nil_iff_forall_not_mem]
    intro e he
    obtain ⟨m, hm, i, hi, l, hl, c, hc, hmfac, hmstat, _⟩ := (hiffC e).1 he
    rcases hmstat with h | h
    · exact (hnone m hm hmfac).1 h
    · exact (hnone m hm hmfac).2 h

/-- Witness for C9 at a concrete state with one CONFIRMED match: the item
name qualifies as an other name and the contributor label appears. -/
theorem derived_views_spec_witness :
    "Item Name" ∈ otherNames dbViews wFac ∧
    ("Contrib (ListA)", 10) ∈ contributorsView dbViews wFac := by
  have h := derived_views_spec dbViews wFac (by decide) (by decide) (by decide)
  constructor
  · exact (h.1 "Item Name").2 ⟨{ wMatch1 with status := MatchStatus.confirmed },
      List.mem_cons_self _ _, wItem, List.mem_cons_self _ _, wList,
      List.mem_cons_self _ _, rfl, Or.inr rfl, rfl, rfl, rfl, rfl, rfl,
      by decide, by decide⟩
  · exact (h.2.2.1 ("Contrib (ListA)", 10)).2 ⟨{ wMatch1 with status := MatchStatus.confirmed },
      List.mem_cons_self _ _, wItem, List.mem_cons_self _ _, wList,
      List.mem_cons_self _ _, wContrib, List.mem_cons_self _ _, rfl, Or.inr rfl,
      rfl, rfl, rfl, rfl, rfl, rfl⟩

end OAR
